import Mathlib

/-!
Verification of the nmap2docx-ng converter against its specification.

The development shallowly embeds the single Python source file: Python
strings are Lean `String`s, Python `None`-able values are `Option String`,
the lxml element tree is the inductive `XmlElem`, and code that can raise
an exception returns `Except String`.  Definitions follow the source
function by function; theorems settle the specification claims.
-/

namespace NmapToDocx

/-! ## Python string primitives
Models of the Python string operations used by the source:
f-string rendering of a possibly-None value, upper, strip, join,
substring containment and endswith. -/

/-- Python f-string rendering of a value that is a `str` or `None`:
`None` prints as the literal text None. -/
def pyStr : Option String → String
  | none => "None"
  | some s => s

/-- Python str.upper for the ASCII strings this tool handles. -/
def pyUpper (s : String) : String := ⟨s.data.map Char.toUpper⟩

/-- Python whitespace set used by str.strip() with no argument. -/
def isPyWs (c : Char) : Bool :=
  c == ' ' || c == '\t' || c == '\n' || c == '\r' ||
  c == Char.ofNat 11 || c == Char.ofNat 12

/-- Drop matching characters from the front of a character list. -/
def dropLeading (p : Char → Bool) (l : List Char) : List Char := l.dropWhile p

/-- Drop matching characters from the back of a character list. -/
def dropTrailing (p : Char → Bool) (l : List Char) : List Char :=
  (l.reverse.dropWhile p).reverse

/-- Python str.strip against a character predicate: both ends. -/
def pyStripP (p : Char → Bool) (s : String) : String :=
  ⟨dropTrailing p (dropLeading p s.data)⟩

/-- Python str.strip() with no argument: strip whitespace from both ends. -/
def pyStripWs (s : String) : String := pyStripP isPyWs s

/-- Python str.strip(",") : strip commas from both ends. -/
def pyStripComma (s : String) : String := pyStripP (fun c => c == ',') s

/-- Python sep.join(list). -/
def pyJoin (sep : String) : List String → String
  | [] => ""
  | [x] => x
  | x :: xs => x ++ sep ++ pyJoin sep xs

/-- Does the second list start the first list? -/
def startsWithL : List Char → List Char → Bool
  | [], _ => true
  | _ :: _, [] => false
  | p :: ps, c :: cs => p == c && startsWithL ps cs

/-- Does pat occur as a contiguous sublist? -/
def containsSubL (pat : List Char) : List Char → Bool
  | [] => startsWithL pat []
  | c :: cs => startsWithL pat (c :: cs) || containsSubL pat cs

/-- Python substring containment: needle in hay. -/
def pyContains (hay needle : String) : Bool := containsSubL needle.data hay.data

/-- Python str.endswith. -/
def pyEndsWith (s suf : String) : Bool :=
  startsWithL suf.data.reverse s.data.reverse

/-! ## XML element trees
The fragment of the lxml element interface the source uses:
attribute lookup get (None when absent), find of the first child with a
tag, findall of all children with a tag in document order, and the
descendant search used by findall with a .//tag path. -/

/-- A parsed XML element: tag, attributes in document order, children in
document order. -/
structure XmlElem where
  tag : String
  attrib : List (String × String)
  children : List XmlElem

/-- Element.get(name) : the attribute value, or None when absent. -/
def XmlElem.get (e : XmlElem) (name : String) : Option String :=
  (e.attrib.find? (fun p => p.1 == name)).map (fun p => p.2)

/-- Element.find(tag) : the first child with the tag, or None. -/
def XmlElem.find (e : XmlElem) (tag : String) : Option XmlElem :=
  e.children.find? (fun c => c.tag == tag)

/-- Element.findall(tag) : all children with the tag, in document order. -/
def XmlElem.findall (e : XmlElem) (tag : String) : List XmlElem :=
  e.children.filter (fun c => c.tag == tag)

/-- All descendants of the elements of a list, in document (pre-) order. -/
def descList : List XmlElem → List XmlElem
  | [] => []
  | XmlElem.mk t a kids :: cs =>
      XmlElem.mk t a kids :: (descList kids ++ descList cs)

/-- Element.findall(".//tag") : all descendants with the tag, in document
order. -/
def XmlElem.findallDescendant (e : XmlElem) (tag : String) : List XmlElem :=
  (descList e.children).filter (fun c => c.tag == tag)

/-! ## Extractor data model
Python dict entries become structure fields.  A field holds
`Option String` because Element.get returns None when the attribute is
absent; the literal Python string that the source sometimes stores is
`some`. -/

/-- One entry of host_data["ports"]. -/
structure PortData where
  portid : Option String
  protocol : Option String
  state : Option String
  service : Option String
  product : Option String
  version : Option String
deriving Repr, DecidableEq

/-- One entry of host_data["extraports"]. -/
structure ExtraPorts where
  state : Option String
  count : Option String
deriving Repr, DecidableEq

/-- One host_data dict produced per host element. -/
structure HostData where
  address : String
  hostnames : String
  ports : List PortData
  extraports : List ExtraPorts
deriving Repr, DecidableEq

/-- List.mapM specialised to Except with the evaluation order of the
Python loops: stop at the first raised exception. -/
def mapME {α β : Type} (f : α → Except String β) : List α → Except String (List β)
  | [] => .ok []
  | x :: xs =>
    match f x with
    | .error e => .error e
    | .ok y =>
      match mapME f xs with
      | .error e => .error e
      | .ok ys => .ok (y :: ys)

/-! ## Extractor (parse_nmap_xml) -/

/-- The text an address child contributes to the address accumulator:
"addr (ADDRTYPE)" when addrtype is exactly ipv4 or ipv6, nothing for any
other (or absent) addrtype. -/
def addrEntryOf (a : XmlElem) : Option String :=
  match a.get "addrtype" with
  | none => none
  | some t =>
    if t == "ipv4" || t == "ipv6" then
      some (pyStr (a.get "addr") ++ " (" ++ pyUpper t ++ ")")
    else none

/-- One iteration of the address loop of parse_nmap_xml: append
"addr (ADDRTYPE), " for a matching address child, else keep the
accumulator. -/
def addrStep (acc : String) (a : XmlElem) : String :=
  match addrEntryOf a with
  | none => acc
  | some entry => acc ++ (entry ++ ", ")

/-- The entries the address loop appends for a host, in document order. -/
def addressEntries (host : XmlElem) : List String :=
  (host.findall "address").filterMap addrEntryOf

/-- The address field of a host: accumulate matching address children,
then .strip().strip(","). -/
def host_address (host : XmlElem) : String :=
  pyStripComma (pyStripWs (List.foldl addrStep "" (host.findall "address")))

/-- The hostnames field of a host: ", ".join over hostname children of the
hostnames element, or the initial empty string when the element is
absent. -/
def host_hostnames (host : XmlElem) : String :=
  match host.find "hostnames" with
  | none => ""
  | some hns =>
    pyJoin ", " ((hns.findall "hostname").map
      (fun hn => pyStr (hn.get "name") ++ " (" ++ pyStr (hn.get "type") ++ ")"))

/-- One port dict. Accessing .get on the result of find("state") raises
AttributeError when the state child is absent; the service fields fall
back to the empty Python string when the service child is absent. -/
def parse_port (port : XmlElem) : Except String PortData :=
  match port.find "state" with
  | none => .error "AttributeError: NoneType object has no attribute get"
  | some stateElem =>
    .ok { portid := port.get "portid"
          protocol := port.get "protocol"
          state := stateElem.get "state"
          service := match port.find "service" with
                     | some se => se.get "name"
                     | none => some ""
          product := match port.find "service" with
                     | some se => se.get "product"
                     | none => some ""
          version := match port.find "service" with
                     | some se => se.get "version"
                     | none => some "" }

/-- The extraports list of a host with a ports element: at most one entry,
from the first extraports child. -/
def host_extraports (portsElem : XmlElem) : List ExtraPorts :=
  match portsElem.find "extraports" with
  | none => []
  | some ex => [{ state := ex.get "state", count := ex.get "count" }]

/-- The body of the per-host loop of parse_nmap_xml. -/
def parse_host (host : XmlElem) : Except String HostData :=
  match host.find "ports" with
  | none =>
    .ok { address := host_address host, hostnames := host_hostnames host
          ports := [], extraports := [] }
  | some portsElem =>
    match mapME parse_port (portsElem.findall "port") with
    | .error e => .error e
    | .ok ports =>
      .ok { address := host_address host, hostnames := host_hostnames host
            ports := ports, extraports := host_extraports portsElem }

/-- parse_nmap_xml on an already parsed tree: one HostData per descendant
host element, in document order; the first raised exception aborts the
whole extraction. -/
def parse_nmap_xml (root : XmlElem) : Except String (List HostData) :=
  mapME parse_host (root.findallDescendant "host")

/-! ## Renderer data model
A cell records its text, its shading fill, the explicit run text color if
one was ever set, and the run font applied by the final loop of
create_final_host_table.  A row is either the single cell left after
merging cells 0..5, or six unmerged cells. -/

/-- One table cell as observable through the docx library calls the source
makes. -/
structure Cell where
  text : String
  fill : Option String
  textColor : Option String
  fontSize : Option Nat
  fontName : Option String
deriving Repr, DecidableEq

/-- A freshly written cell: text assigned, nothing else set. -/
def Cell.mk0 (text : String) : Cell :=
  { text := text, fill := none, textColor := none, fontSize := none, fontName := none }

/-- A table row: the merge of all six columns, or six separate cells. -/
inductive Row where
  | merged (cell : Cell)
  | cells (cs : List Cell)
deriving Repr, DecidableEq

/-- A document table: style name and rows in insertion order. -/
structure Table where
  style : String
  rows : List Row
deriving Repr, DecidableEq

/-- A document block: a table or the spacer paragraph added after it. -/
inductive Block where
  | table (t : Table)
  | paragraph
deriving Repr, DecidableEq

/-- The output document. -/
structure Document where
  blocks : List Block
deriving Repr, DecidableEq

/-- set_cell_background_color: append a shading fill, and when a text
color is passed, set it on every run of the cell. -/
def set_cell_background_color (cell : Cell) (color : String)
    (textColor : Option String) : Cell :=
  { cell with fill := some color
              textColor := match textColor with
                           | some t => some t
                           | none => cell.textColor }

/-- The final loop of create_final_host_table: 9 pt Calibri on every run. -/
def set_font_cell (c : Cell) : Cell :=
  { c with fontSize := some 9, fontName := some "Calibri" }

/-- Apply the font loop to one row. -/
def set_font_row : Row → Row
  | .merged c => .merged (set_font_cell c)
  | .cells cs => .cells (cs.map set_font_cell)

/-- An accent header band: all six columns merged, label text, fill
E94347, explicit white text. -/
def make_band_row (label : String) : Row :=
  Row.merged (set_cell_background_color (Cell.mk0 label) "E94347" (some "FFFFFF"))

/-- The literal column titles of the fifth row. -/
def headerTitles : List String :=
  ["Port", "Protocol", "State", "Service", "Product", "Version"]

/-- One port row.  Assigning cell text from a Python None raises
TypeError, which the source does for portid, protocol, state and service;
product and version are guarded by an explicit None check.  The row fill
is EAF1DD exactly when state equals open, else F2DBDB. -/
def render_port_row (port : PortData) : Except String Row :=
  match port.portid, port.protocol, port.state, port.service with
  | some t0, some t1, some t2, some t3 =>
    let texts := [t0, t1, t2, t3,
      match port.product with | some p => p | none => "",
      match port.version with | some v => v | none => ""]
    let color := if port.state == some "open" then "EAF1DD" else "F2DBDB"
    .ok (Row.cells (texts.map (fun t => set_cell_background_color (Cell.mk0 t) color none)))
  | _, _, _, _ => .error "TypeError: text must be str"

/-- One extraports row: all six columns merged, the f-string text, no
shading call. -/
def render_extraports_row (ep : ExtraPorts) : Row :=
  Row.merged (Cell.mk0 (pyStr ep.count ++ " ports are in state: " ++ pyStr ep.state))

/-- The five rows every host table starts with: Address band, address
value, Hostnames band, hostnames value, column titles. -/
def fixed_rows (hd : HostData) : List Row :=
  [make_band_row "Address",
   Row.merged (Cell.mk0 hd.address),
   make_band_row "Hostnames",
   Row.merged (Cell.mk0 hd.hostnames),
   Row.cells (headerTitles.map
     (fun t => set_cell_background_color (Cell.mk0 t) "E94347" (some "FFFFFF")))]

/-- create_final_host_table: the five fixed rows, one row per port, one
row per extraports entry, then the font loop over every cell. -/
def create_final_host_table (hd : HostData) : Except String Table :=
  match mapME render_port_row hd.ports with
  | .error e => .error e
  | .ok portRows =>
    .ok { style := "Table Grid"
          rows := ((fixed_rows hd
                    ++ portRows
                    ++ hd.extraports.map render_extraports_row).map set_font_row) }

/-- The main loop: one table then one spacer paragraph per host. -/
def interleaveBlocks : List Table → List Block
  | [] => []
  | t :: ts => Block.table t :: Block.paragraph :: interleaveBlocks ts

/-- Build the whole document from the extracted host records. -/
def build_document (hosts : List HostData) : Except String Document :=
  match mapME create_final_host_table hosts with
  | .error e => .error e
  | .ok tables => .ok { blocks := interleaveBlocks tables }

/-! ## Header check and main script -/

/-- The literal first-line marker check_xml_file looks for. -/
def xmlDeclLine : String := "<?xml version=\"1.0\" encoding=\"UTF-8\"?>"

/-- The literal second-line marker check_xml_file looks for. -/
def doctypeLine : String := "<!DOCTYPE nmaprun>"

/-- check_xml_file: the input file as a list of lines, or none when
opening or reading raises; True exactly when the first line contains the
XML declaration and the second line contains the nmaprun DOCTYPE. -/
def check_xml_file : Option (List String) → Bool
  | none => false
  | some lines =>
      pyContains (lines.getD 0 "") xmlDeclLine &&
      pyContains (lines.getD 1 "") doctypeLine

/-- The three fixed lines the main script prints before exit(1). -/
def invalidMessages : List String :=
  ["Invalid XML file.",
   "Please generate a valid Nmap file with a command like:",
   "sudo nmap -Pn -sC -sV -oX targets -iL targets.txt"]

/-- Append .docx to the output name unless already present. -/
def output_path (outputArg : String) : String :=
  if pyEndsWith outputArg ".docx" then outputArg else outputArg ++ ".docx"

/-- The observable outcome of one run of the script. -/
structure RunOutcome where
  exitCode : Nat
  printed : List String
  saved : Option (String × Document)
  fatal : Option String
deriving Repr, DecidableEq

/-- The top-level script: header check, XML parse (none models an
XMLSyntaxError from an unparsable file), extraction, rendering, save.
Any uncaught exception terminates the interpreter with exit status 1 and
nothing saved. -/
def mainRun (fileLines : Option (List String)) (parsedXml : Option XmlElem)
    (outputArg : String) : RunOutcome :=
  if check_xml_file fileLines then
    match parsedXml with
    | none => { exitCode := 1, printed := [], saved := none, fatal := some "XMLSyntaxError" }
    | some root =>
      match parse_nmap_xml root with
      | .error e => { exitCode := 1, printed := [], saved := none, fatal := some e }
      | .ok hosts =>
        match build_document hosts with
        | .error e => { exitCode := 1, printed := [], saved := none, fatal := some e }
        | .ok doc =>
          { exitCode := 0, printed := []
            saved := some (output_path outputArg, doc), fatal := none }
  else
    { exitCode := 1, printed := invalidMessages, saved := none, fatal := none }

/-- The tables of a document, skipping spacer paragraphs. -/
def docTables (d : Document) : List Table :=
  d.blocks.filterMap (fun b => match b with
    | Block.table t => some t
    | Block.paragraph => none)

/-- The texts of the cells of a row. -/
def rowCellTexts : Row → List String
  | .merged c => [c.text]
  | .cells cs => cs.map (fun c => c.text)

/-- The run text colors of the cells of a row. -/
def rowTextColors : Row → List (Option String)
  | .merged c => [c.textColor]
  | .cells cs => cs.map (fun c => c.textColor)

/-- The raw accumulator text of the address loop: every entry followed by
the ", " separator. -/
def entriesBlob : List String → String
  | [] => ""
  | e :: es => e ++ ", " ++ entriesBlob es

/-! ## Concrete test inputs
Small element trees used to instantiate the universal theorems and to
exhibit counterexamples.  Fallback values of getD calls are never reached:
the adjacent theorems prove the computations succeed. -/

/-- A state child reporting an open port. -/
def stateOpenElem : XmlElem := ⟨"state", [("state", "open")], []⟩

/-- A state child reporting a filtered port. -/
def stateFilteredElem : XmlElem := ⟨"state", [("state", "filtered")], []⟩

/-- A service child with name, product and version attributes. -/
def svcFullElem : XmlElem :=
  ⟨"service", [("name", "http"), ("product", "nginx"), ("version", "1.18")], []⟩

/-- An open tcp/80 port with full service information. -/
def portFullElem : XmlElem :=
  ⟨"port", [("protocol", "tcp"), ("portid", "80")], [stateOpenElem, svcFullElem]⟩

/-- The ports element of the minimal host. -/
def portsMinElem : XmlElem := ⟨"ports", [], [portFullElem]⟩

/-- A minimal host: one ipv4 address, no hostnames element, one open
port, no extraports element. -/
def hostMin : XmlElem :=
  ⟨"host", [], [⟨"address", [("addr", "10.0.0.1"), ("addrtype", "ipv4")], []⟩,
                portsMinElem]⟩

/-- The root of the minimal single-host document. -/
def rootMin : XmlElem := ⟨"nmaprun", [], [hostMin]⟩

/-- The record extracted from the minimal host. -/
def hdMin : HostData := (parse_host hostMin).toOption.getD ⟨"", "", [], []⟩

/-- The port record of the minimal host. -/
def portMinData : PortData :=
  ⟨some "80", some "tcp", some "open", some "http", some "nginx", some "1.18"⟩

/-- The table rendered for the minimal host. -/
def tblMin : Table := (create_final_host_table hdMin).toOption.getD ⟨"", []⟩

/-- A host record with every field empty. -/
def hdEmpty : HostData := ⟨"", "", [], []⟩

/-- The table rendered for the empty host record. -/
def tblEmpty : Table := (create_final_host_table hdEmpty).toOption.getD ⟨"", []⟩

/-- A port whose service element has a name but no product and no version
attribute. -/
def portNoVersionElem : XmlElem :=
  ⟨"port", [("protocol", "tcp"), ("portid", "22")],
   [stateOpenElem, ⟨"service", [("name", "ssh")], []⟩]⟩

/-- The record extracted from portNoVersionElem. -/
def portNoVersionData : PortData :=
  (parse_port portNoVersionElem).toOption.getD ⟨none, none, none, none, none, none⟩

/-- The row rendered for portNoVersionData. -/
def rowNoVersion : Row :=
  (render_port_row portNoVersionData).toOption.getD (Row.merged (Cell.mk0 ""))

/-- A port element with neither a state child nor a service child. -/
def portBareElem : XmlElem := ⟨"port", [("protocol", "tcp"), ("portid", "80")], []⟩

/-- A filtered udp/53 port with a state child but no service child. -/
def portNoSvcElem : XmlElem :=
  ⟨"port", [("protocol", "udp"), ("portid", "53")], [stateFilteredElem]⟩

/-- The ports element wrapping the bare port. -/
def portsBareElem : XmlElem := ⟨"ports", [], [portBareElem]⟩

/-- A host whose only port lacks a state child. -/
def hostBadPort : XmlElem := ⟨"host", [], [portsBareElem]⟩

/-- A document whose only host has a port without a state child. -/
def rootBadPort : XmlElem := ⟨"nmaprun", [], [hostBadPort]⟩

/-- A host with ipv4, mac and ipv6 address children and no ports
element. -/
def hostAddrs : XmlElem :=
  ⟨"host", [],
   [⟨"address", [("addr", "10.0.0.1"), ("addrtype", "ipv4")], []⟩,
    ⟨"address", [("addr", "AA:BB:CC:DD:EE:FF"), ("addrtype", "mac")], []⟩,
    ⟨"address", [("addr", "fe80::1"), ("addrtype", "ipv6")], []⟩]⟩

/-- The record extracted from hostAddrs. -/
def hdAddrs : HostData := (parse_host hostAddrs).toOption.getD ⟨"", "", [], []⟩

/-- The extraports element of the specification example: 997 filtered
ports. -/
def extraFilteredElem : XmlElem :=
  ⟨"extraports", [("state", "filtered"), ("count", "997")], []⟩

/-- The ports element of the specification example: no port children,
one extraports child. -/
def portsExtraElem : XmlElem := ⟨"ports", [], [extraFilteredElem]⟩

/-- The specification example host: extraports only. -/
def hostExtra : XmlElem := ⟨"host", [], [portsExtraElem]⟩

/-- The record extracted from hostExtra. -/
def hdExtra : HostData := (parse_host hostExtra).toOption.getD ⟨"", "", [], []⟩

/-- The table rendered for hostExtra. -/
def tblExtra : Table := (create_final_host_table hdExtra).toOption.getD ⟨"", []⟩

/-- A host whose address child lacks addr and whose hostname child lacks
name and type. -/
def hostNoneAttrs : XmlElem :=
  ⟨"host", [],
   [⟨"address", [("addrtype", "ipv4")], []⟩,
    ⟨"hostnames", [], [⟨"hostname", [], []⟩]⟩]⟩

/-- The record extracted from hostNoneAttrs. -/
def hdNoneAttrs : HostData := (parse_host hostNoneAttrs).toOption.getD ⟨"", "", [], []⟩

/-- A file whose two lines contain neither header marker. -/
def badHeaderLines : List String := ["hello\n", "world\n"]

/-- The document built for the minimal single-host input. -/
def docMin : Document := (build_document [hdMin]).toOption.getD ⟨[]⟩

/-! ## String lemmas -/

theorem strExt {a b : String} (h : a.data = b.data) : a = b := by
  cases a; cases b; cases h; rfl

theorem str_append_assoc (a b c : String) : a ++ b ++ c = a ++ (b ++ c) :=
  strExt (by simp [String.data_append, List.append_assoc])

theorem str_append_empty_right (a : String) : a ++ "" = a :=
  strExt (by rw [String.data_append]; exact List.append_nil a.data)

/-! ## mapME lemmas -/

theorem mapME_ok_length {α β : Type} {f : α → Except String β} :
    ∀ {l : List α} {ys : List β}, mapME f l = .ok ys → ys.length = l.length := by
  intro l
  induction l with
  | nil =>
    intro ys h
    injection h with h1
    rw [← h1]
    rfl
  | cons x xs ih =>
    intro ys h
    unfold mapME at h
    cases hfx : f x with
    | error e => rw [hfx] at h; exact Except.noConfusion h
    | ok y =>
      rw [hfx] at h
      cases hm : mapME f xs with
      | error e => rw [hm] at h; exact Except.noConfusion h
      | ok ys2 =>
        rw [hm] at h
        injection h with h1
        rw [← h1]
        simp [ih hm]

theorem mapME_ok_getElem {α β : Type} {f : α → Except String β} :
    ∀ {l : List α} {ys : List β}, mapME f l = .ok ys →
      ∀ (i : Nat) (x : α), l[i]? = some x → ∃ y, ys[i]? = some y ∧ f x = .ok y := by
  intro l
  induction l with
  | nil => intro ys h i x hx; simp at hx
  | cons a as ih =>
    intro ys h i x hx
    unfold mapME at h
    cases hfa : f a with
    | error e => rw [hfa] at h; exact Except.noConfusion h
    | ok y =>
      rw [hfa] at h
      cases hm : mapME f as with
      | error e => rw [hm] at h; exact Except.noConfusion h
      | ok ys2 =>
        rw [hm] at h
        injection h with h1
        cases i with
        | zero =>
          have hax : a = x := by simpa using hx
          exact ⟨y, by rw [← h1]; simp, by rw [← hax]; exact hfa⟩
        | succ n =>
          have hx2 : as[n]? = some x := by simpa using hx
          obtain ⟨y2, hy2, hf2⟩ := ih hm n x hx2
          exact ⟨y2, by rw [← h1]; simpa using hy2, hf2⟩

theorem mapME_error_of_mem {α β : Type} {f : α → Except String β} {x : α} {e : String} :
    ∀ {l : List α}, x ∈ l → f x = .error e → ∀ ys, mapME f l ≠ .ok ys := by
  intro l
  induction l with
  | nil => intro hx; exact absurd hx (List.not_mem_nil x)
  | cons a as ih =>
    intro hx hfx ys h
    unfold mapME at h
    rcases List.mem_cons.mp hx with h1 | h1
    · rw [← h1, hfx] at h
      exact Except.noConfusion h
    · cases hfa : f a with
      | error e2 => rw [hfa] at h; exact Except.noConfusion h
      | ok y =>
        rw [hfa] at h
        cases hm : mapME f as with
        | error e2 => rw [hm] at h; exact Except.noConfusion h
        | ok ys2 => exact ih h1 hfx ys2 hm

/-! ## List index lemmas -/

theorem getElem?_append_len_add {α : Type} (A B : List α) (i : Nat) :
    (A ++ B)[A.length + i]? = B[i]? := by
  rw [List.getElem?_append_right (by omega)]
  congr 1
  omega

theorem getElem?_append_lt {α : Type} (A B : List α) (i : Nat) (h : i < A.length) :
    (A ++ B)[i]? = A[i]? := by
  rw [List.getElem?_append]
  exact if_pos h

/-! ## Inversion lemmas for the extractor and the renderer -/

theorem parse_host_ok_fields {h : XmlElem} {hd : HostData}
    (hok : parse_host h = .ok hd) :
    hd.address = host_address h ∧ hd.hostnames = host_hostnames h := by
  unfold parse_host at hok
  cases hfp : h.find "ports" with
  | none =>
    rw [hfp] at hok
    injection hok with h1
    rw [← h1]
    exact ⟨rfl, rfl⟩
  | some pe =>
    rw [hfp] at hok
    dsimp only at hok
    cases hm : mapME parse_port (pe.findall "port") with
    | error e => rw [hm] at hok; exact Except.noConfusion hok
    | ok ports =>
      rw [hm] at hok
      injection hok with h1
      rw [← h1]
      exact ⟨rfl, rfl⟩

theorem parse_host_ok_noports {h : XmlElem} {hd : HostData}
    (hfp : h.find "ports" = none) (hok : parse_host h = .ok hd) :
    hd.ports = [] ∧ hd.extraports = [] := by
  unfold parse_host at hok
  rw [hfp] at hok
  injection hok with h1
  rw [← h1]
  exact ⟨rfl, rfl⟩

theorem parse_host_ok_ports {h pe : XmlElem} {hd : HostData}
    (hfp : h.find "ports" = some pe) (hok : parse_host h = .ok hd) :
    mapME parse_port (pe.findall "port") = .ok hd.ports ∧
    hd.extraports = host_extraports pe := by
  unfold parse_host at hok
  rw [hfp] at hok
  dsimp only at hok
  cases hm : mapME parse_port (pe.findall "port") with
  | error e => rw [hm] at hok; exact Except.noConfusion hok
  | ok ports =>
    rw [hm] at hok
    injection hok with h1
    rw [← h1]
    exact ⟨rfl, rfl⟩

theorem parse_host_error_of_bad_port {h pe p : XmlElem}
    (hfp : h.find "ports" = some pe) (hp : p ∈ pe.findall "port")
    (hstate : p.find "state" = none) :
    ∀ hd, parse_host h ≠ .ok hd := by
  intro hd hok
  have hperr : parse_port p = .error "AttributeError: NoneType object has no attribute get" := by
    unfold parse_port
    rw [hstate]
  exact mapME_error_of_mem hp hperr hd.ports (parse_host_ok_ports hfp hok).1

theorem create_ok_rows {hd : HostData} {t : Table}
    (hok : create_final_host_table hd = .ok t) :
    ∃ portRows, mapME render_port_row hd.ports = .ok portRows ∧
      t.rows = (fixed_rows hd ++ portRows
                ++ hd.extraports.map render_extraports_row).map set_font_row := by
  unfold create_final_host_table at hok
  cases hm : mapME render_port_row hd.ports with
  | error e => rw [hm] at hok; exact Except.noConfusion hok
  | ok portRows =>
    rw [hm] at hok
    injection hok with h1
    exact ⟨portRows, rfl, by rw [← h1]⟩

theorem render_port_row_ok {p : PortData} {r : Row}
    (hok : render_port_row p = .ok r) :
    r = Row.cells ([p.portid.getD "", p.protocol.getD "", p.state.getD "",
                    p.service.getD "", p.product.getD "", p.version.getD ""].map
      (fun s => set_cell_background_color (Cell.mk0 s)
          (if p.state == some "open" then "EAF1DD" else "F2DBDB") none)) := by
  unfold render_port_row at hok
  cases h0 : p.portid with
  | none => rw [h0] at hok; exact Except.noConfusion hok
  | some t0 =>
  cases h1 : p.protocol with
  | none => rw [h0, h1] at hok; exact Except.noConfusion hok
  | some t1 =>
  cases h2 : p.state with
  | none => rw [h0, h1, h2] at hok; exact Except.noConfusion hok
  | some t2 =>
  cases h3 : p.service with
  | none => rw [h0, h1, h2, h3] at hok; exact Except.noConfusion hok
  | some t3 =>
  rw [h0, h1, h2, h3] at hok
  injection hok with h4
  rw [← h4]
  cases h5 : p.product <;> cases h6 : p.version <;> simp [h0, h1, h2, h3, h5, h6]

/-! ## Lemmas about the address accumulator and its stripping -/

theorem foldl_addrStep (l : List XmlElem) (acc : String) :
    List.foldl addrStep acc l = acc ++ entriesBlob (l.filterMap addrEntryOf) := by
  induction l generalizing acc with
  | nil => simp [entriesBlob, str_append_empty_right]
  | cons a as ih =>
    cases he : addrEntryOf a with
    | none =>
      rw [List.foldl_cons, List.filterMap_cons, he]
      have hstep : addrStep acc a = acc := by unfold addrStep; rw [he]
      rw [hstep]
      exact ih acc
    | some e =>
      rw [List.foldl_cons, List.filterMap_cons, he]
      have hstep : addrStep acc a = acc ++ (e ++ ", ") := by unfold addrStep; rw [he]
      rw [hstep, ih (acc ++ (e ++ ", "))]
      show _ = acc ++ entriesBlob (e :: as.filterMap addrEntryOf)
      rw [entriesBlob]
      rw [str_append_assoc acc (e ++ ", ") (entriesBlob (as.filterMap addrEntryOf)),
          str_append_assoc e ", " (entriesBlob (as.filterMap addrEntryOf))]

theorem entriesBlob_data (e : String) (es : List String) :
    (entriesBlob (e :: es)).data = (pyJoin ", " (e :: es)).data ++ [',', ' '] := by
  induction es generalizing e with
  | nil =>
    show ((e ++ ", ") ++ entriesBlob []).data = e.data ++ [',', ' ']
    rw [show entriesBlob [] = "" from rfl, str_append_empty_right, String.data_append]
  | cons f fs ih =>
    show ((e ++ ", ") ++ entriesBlob (f :: fs)).data
       = ((e ++ ", ") ++ pyJoin ", " (f :: fs)).data ++ [',', ' ']
    rw [String.data_append, ih f]
    simp [String.data_append, List.append_assoc]

theorem pyJoin_head (e : String) (es : List String) :
    ∃ r, (pyJoin ", " (e :: es)).data = e.data ++ r := by
  cases es with
  | nil => exact ⟨[], by simp [pyJoin]⟩
  | cons f fs =>
    refine ⟨(", " : String).data ++ (pyJoin ", " (f :: fs)).data, ?_⟩
    show ((e ++ ", ") ++ pyJoin ", " (f :: fs)).data = _
    rw [String.data_append, String.data_append, List.append_assoc]

theorem pyJoin_last :
    ∀ es : List String, es ≠ [] → (∀ x ∈ es, ∃ k, x.data = k ++ [')']) →
      ∃ K, (pyJoin ", " es).data = K ++ [')'] := by
  intro es
  induction es with
  | nil => intro hne; exact absurd rfl hne
  | cons e es ih =>
    intro _ hp
    cases es with
    | nil =>
      obtain ⟨k, hk⟩ := hp e (by simp)
      exact ⟨k, by rw [show pyJoin ", " [e] = e from rfl]; exact hk⟩
    | cons f fs =>
      obtain ⟨K, hK⟩ := ih (by simp) (fun x hx => hp x (List.mem_cons_of_mem _ hx))
      refine ⟨(e ++ ", ").data ++ K, ?_⟩
      show ((e ++ ", ") ++ pyJoin ", " (f :: fs)).data = _
      rw [String.data_append, hK, List.append_assoc]

theorem dropLeading_cons_neg {p : Char → Bool} {c : Char} (t : List Char)
    (h : p c = false) : dropLeading p (c :: t) = c :: t := by
  simp [dropLeading, List.dropWhile_cons, h]

theorem dropTrailing_pair {p : Char → Bool} {a b : Char} (l : List Char)
    (ha : p a = true) (hb : p b = false) :
    dropTrailing p (l ++ [b, a]) = l ++ [b] := by
  simp [dropTrailing, List.dropWhile_cons, ha, hb]

/-- Stripping whitespace and then commas from both ends of the raw
accumulator leaves exactly the comma-separated join, provided the first
entry opens with a character that is neither whitespace nor a comma and
every entry closes with a parenthesis. -/
theorem strip_entries (e : String) (es : List String) (c : Char) (rest : List Char)
    (hhead : e.data = c :: rest) (hws : isPyWs c = false) (hc : (c == ',') = false)
    (hp : ∀ x ∈ e :: es, ∃ k, x.data = k ++ [')']) :
    pyStripComma (pyStripWs (entriesBlob (e :: es))) = pyJoin ", " (e :: es) := by
  obtain ⟨r, hr⟩ := pyJoin_head e es
  obtain ⟨K, hK⟩ := pyJoin_last (e :: es) (by simp) hp
  have hJcons : (pyJoin ", " (e :: es)).data = c :: (rest ++ r) := by
    rw [hr, hhead]; rfl
  apply strExt
  show dropTrailing (fun x => x == ',')
        (dropLeading (fun x => x == ',')
          (dropTrailing isPyWs
            (dropLeading isPyWs (entriesBlob (e :: es)).data))) = _
  rw [entriesBlob_data e es]
  have step1 : dropLeading isPyWs ((pyJoin ", " (e :: es)).data ++ [',', ' '])
      = (pyJoin ", " (e :: es)).data ++ [',', ' '] := by
    rw [hJcons]
    exact dropLeading_cons_neg _ hws
  have step2 : dropTrailing isPyWs ((pyJoin ", " (e :: es)).data ++ [',', ' '])
      = (pyJoin ", " (e :: es)).data ++ [','] := by
    have h1 : ((pyJoin ", " (e :: es)).data ++ [',', ' '])
        = (pyJoin ", " (e :: es)).data ++ [',', ' '] := rfl
    exact dropTrailing_pair _ (by decide) (by decide)
  rw [step1, step2]
  have step3 : dropLeading (fun x => x == ',') ((pyJoin ", " (e :: es)).data ++ [','])
      = (pyJoin ", " (e :: es)).data ++ [','] := by
    rw [hJcons]
    exact dropLeading_cons_neg _ hc
  rw [step3]
  have step4 : dropTrailing (fun x => x == ',') ((pyJoin ", " (e :: es)).data ++ [','])
      = (pyJoin ", " (e :: es)).data := by
    rw [hK]
    have : K ++ [')'] ++ [','] = K ++ [')', ','] := by simp
    rw [this]
    exact dropTrailing_pair _ (by decide) (by decide)
  rw [step4]

/-! ## Claim C1 -/

/-- C1, counterexample: the claim asserts that the six column-header cells
receive no explicit text color, leaving the run text at the default
black.  In the table rendered for the minimal host, every column-header
cell carries the explicit run text color FFFFFF, because the source
passes "FFFFFF" to set_cell_background_color for these cells exactly as
it does for the Address and Hostnames bands. -/
theorem C1_counterexample :
    (tblMin.rows[4]?).map rowTextColors =
      some [some "FFFFFF", some "FFFFFF", some "FFFFFF",
            some "FFFFFF", some "FFFFFF", some "FFFFFF"] ∧
    some "FFFFFF" ≠ (none : Option String) :=
  ⟨rfl, by decide⟩

/-- C1 (amended): in every rendered host table, the six cells of the
column-header row receive the accent fill E94347 and an explicit white
(FFFFFF) run text color, exactly like the Address and Hostnames header
bands; there is no styling asymmetry between them. -/
theorem C1_header_row_style (hd : HostData) (t : Table)
    (hok : create_final_host_table hd = .ok t) :
    t.rows[0]? = some (Row.merged
      (Cell.mk "Address" (some "E94347") (some "FFFFFF") (some 9) (some "Calibri"))) ∧
    t.rows[2]? = some (Row.merged
      (Cell.mk "Hostnames" (some "E94347") (some "FFFFFF") (some 9) (some "Calibri"))) ∧
    t.rows[4]? = some (Row.cells (headerTitles.map (fun s =>
      Cell.mk s (some "E94347") (some "FFFFFF") (some 9) (some "Calibri")))) := by
  obtain ⟨portRows, hm, hrows⟩ := create_ok_rows hok
  rw [hrows]
  refine ⟨rfl, rfl, ?_⟩
  simp [fixed_rows, make_band_row, headerTitles, set_font_row, set_font_cell,
        set_cell_background_color, Cell.mk0]

/-- C1 witness: the amended theorem instantiated at the empty host
record. -/
theorem C1_header_row_style_witness :
    tblEmpty.rows[0]? = some (Row.merged
      (Cell.mk "Address" (some "E94347") (some "FFFFFF") (some 9) (some "Calibri"))) ∧
    tblEmpty.rows[2]? = some (Row.merged
      (Cell.mk "Hostnames" (some "E94347") (some "FFFFFF") (some 9) (some "Calibri"))) ∧
    tblEmpty.rows[4]? = some (Row.cells (headerTitles.map (fun s =>
      Cell.mk s (some "E94347") (some "FFFFFF") (some 9) (some "Calibri")))) :=
  C1_header_row_style hdEmpty tblEmpty (by rfl)

/-! ## Claim C3 -/

/-- C3, counterexample: the claim asserts every absent value becomes the
empty string, never None.  For a port whose service element has a name
but no product and no version attribute, extraction yields product and
version equal to None (modelled as none), not the empty string. -/
theorem C3_counterexample :
    (match parse_port portNoVersionElem with
     | .error _ => none
     | .ok r => some (r.service, r.product, r.version))
      = some (some "ssh", (none : Option String), (none : Option String)) ∧
    (none : Option String) ≠ some "" :=
  ⟨rfl, by decide⟩

/-- C3 (amended): service, product and version default to the empty
string only when the whole service element is absent; when the element is
present, each field is the raw attribute lookup, which is None when that
attribute is missing.  The renderer null-checks product and version,
rendering None as the empty cell text. -/
theorem C3_service_fields (p st : XmlElem) (r : PortData) (q : PortData) (row : Row)
    (h1 : p.find "state" = some st) (h2 : parse_port p = .ok r)
    (h3 : render_port_row q = .ok row) :
    (r.service = match p.find "service" with | some se => se.get "name" | none => some "") ∧
    (r.product = match p.find "service" with | some se => se.get "product" | none => some "") ∧
    (r.version = match p.find "service" with | some se => se.get "version" | none => some "") ∧
    rowCellTexts row = [q.portid.getD "", q.protocol.getD "", q.state.getD "",
                        q.service.getD "", q.product.getD "", q.version.getD ""] := by
  unfold parse_port at h2
  rw [h1] at h2
  dsimp only at h2
  injection h2 with h4
  refine ⟨by rw [← h4], by rw [← h4], by rw [← h4], ?_⟩
  rw [render_port_row_ok h3]
  simp [rowCellTexts, set_cell_background_color, Cell.mk0]

/-- C3 witness: the amended theorem instantiated at the port whose
service element lacks product and version, rendered afterwards. -/
theorem C3_service_fields_witness :
    (portNoVersionData.service
        = match portNoVersionElem.find "service" with
          | some se => se.get "name" | none => some "") ∧
    (portNoVersionData.product
        = match portNoVersionElem.find "service" with
          | some se => se.get "product" | none => some "") ∧
    (portNoVersionData.version
        = match portNoVersionElem.find "service" with
          | some se => se.get "version" | none => some "") ∧
    rowCellTexts rowNoVersion =
      [portNoVersionData.portid.getD "", portNoVersionData.protocol.getD "",
       portNoVersionData.state.getD "", portNoVersionData.service.getD "",
       portNoVersionData.product.getD "", portNoVersionData.version.getD ""] :=
  C3_service_fields portNoVersionElem stateOpenElem portNoVersionData
    portNoVersionData rowNoVersion (by rfl) (by rfl) (by rfl)

/-! ## Claim C5 -/

/-- C5, counterexample: the claim asserts extraction succeeds for every
port element without a service child.  The bare port element has no
service child, yet extraction raises, because it also lacks the state
child whose lookup the source dereferences unconditionally. -/
theorem C5_counterexample :
    portBareElem.find "service" = none ∧
    parse_port portBareElem =
      .error "AttributeError: NoneType object has no attribute get" :=
  ⟨rfl, rfl⟩

/-- C5 (amended): for every port element that has a state child but no
service child, extraction succeeds and the resulting record has service,
product and version all equal to the empty string. -/
theorem C5_missing_service (p st : XmlElem)
    (h1 : p.find "state" = some st) (h2 : p.find "service" = none) :
    parse_port p = .ok { portid := p.get "portid", protocol := p.get "protocol",
                         state := st.get "state", service := some "",
                         product := some "", version := some "" } := by
  unfold parse_port
  rw [h1]
  dsimp only
  rw [h2]

/-- C5 witness: the amended theorem instantiated at a filtered udp/53
port with no service child. -/
theorem C5_missing_service_witness :
    parse_port portNoSvcElem =
      .ok { portid := portNoSvcElem.get "portid",
            protocol := portNoSvcElem.get "protocol",
            state := stateFilteredElem.get "state", service := some "",
            product := some "", version := some "" } :=
  C5_missing_service portNoSvcElem stateFilteredElem (by rfl) (by rfl)

/-! ## Claim C8 -/

/-- C8: whenever the file cannot be opened, or its first line does not
contain the XML declaration marker, or its second line does not contain
the nmaprun DOCTYPE marker, the run prints the fixed three-line
diagnostic (including the example scan command), exits with status 1,
and saves no output document. -/
theorem C8_invalid_header (fileLines : Option (List String)) (parsedXml : Option XmlElem)
    (outputArg : String)
    (hbad : fileLines = none ∨
      ∀ lines, fileLines = some lines →
        pyContains (lines.getD 0 "") xmlDeclLine = false ∨
        pyContains (lines.getD 1 "") doctypeLine = false) :
    mainRun fileLines parsedXml outputArg =
      { exitCode := 1, printed := invalidMessages, saved := none, fatal := none } := by
  have hchk : check_xml_file fileLines = false := by
    cases fileLines with
    | none => rfl
    | some lines =>
      rcases hbad with h | h
      · exact Option.noConfusion h
      · unfold check_xml_file
        dsimp only
        rcases h lines rfl with h1 | h1 <;> rw [h1] <;> simp
  unfold mainRun
  rw [hchk]
  rfl

/-- C8 witness: a file whose two lines contain neither marker yields
exit status 1, the fixed diagnostic, and no saved document. -/
theorem C8_invalid_header_witness :
    mainRun (some badHeaderLines) none "processed_hosts" =
      { exitCode := 1, printed := invalidMessages, saved := none, fatal := none } :=
  C8_invalid_header (some badHeaderLines) none "processed_hosts"
    (Or.inr (fun lines hl => by
      injection hl with h
      rw [← h]
      exact Or.inl (by decide)))

/-! ## Claim C10 -/

/-- C10: an ipv4 address child without an addr attribute contributes the
text "None (IPV4)", and a hostname child without name and type
attributes contributes "None (None)": the extractor interpolates the
literal text None instead of raising or substituting the empty string. -/
theorem C10_none_interpolation (h : XmlElem) (hd : HostData) (a hns hn : XmlElem)
    (hok : parse_host h = .ok hd)
    (ha1 : h.findall "address" = [a]) (ha2 : a.get "addrtype" = some "ipv4")
    (ha3 : a.get "addr" = none)
    (hh1 : h.find "hostnames" = some hns) (hh2 : hns.findall "hostname" = [hn])
    (hh3 : hn.get "name" = none) (hh4 : hn.get "type" = none) :
    hd.address = "None (IPV4)" ∧ hd.hostnames = "None (None)" := by
  obtain ⟨hA, hH⟩ := parse_host_ok_fields hok
  constructor
  · rw [hA]
    unfold host_address
    rw [ha1]
    show pyStripComma (pyStripWs (addrStep "" a)) = "None (IPV4)"
    unfold addrStep addrEntryOf
    rw [ha2]
    dsimp only
    rw [ha3]
    rfl
  · rw [hH]
    unfold host_hostnames
    rw [hh1]
    dsimp only
    rw [hh2]
    show pyJoin ", "
        [pyStr (hn.get "name") ++ " (" ++ pyStr (hn.get "type") ++ ")"] = "None (None)"
    rw [hh3, hh4]
    rfl

/-- C10 witness: the theorem instantiated at a concrete host whose
address child lacks addr and whose hostname child lacks name and type. -/
theorem C10_none_interpolation_witness :
    hdNoneAttrs.address = "None (IPV4)" ∧ hdNoneAttrs.hostnames = "None (None)" :=
  C10_none_interpolation hostNoneAttrs hdNoneAttrs
    ⟨"address", [("addrtype", "ipv4")], []⟩
    ⟨"hostnames", [], [⟨"hostname", [], []⟩]⟩
    ⟨"hostname", [], []⟩
    (by rfl) (by rfl) (by rfl) (by rfl) (by rfl) (by rfl) (by rfl) (by rfl)

/-! ## Claim C7 -/

theorem addressEntries_end_paren (h : XmlElem) :
    ∀ x ∈ addressEntries h, ∃ k, x.data = k ++ [')'] := by
  intro x hx
  obtain ⟨a, _, he⟩ := List.mem_filterMap.mp hx
  unfold addrEntryOf at he
  cases hg : a.get "addrtype" with
  | none => rw [hg] at he; exact Option.noConfusion he
  | some t =>
    rw [hg] at he
    dsimp only at he
    by_cases hb : (t == "ipv4" || t == "ipv6") = true
    · rw [if_pos hb] at he
      injection he with he1
      refine ⟨(pyStr (a.get "addr") ++ " (" ++ pyUpper t).data, ?_⟩
      rw [← he1, String.data_append]
    · rw [if_neg hb] at he; exact Option.noConfusion he

/-- C7: the address field is built only from the address children whose
addrtype attribute is exactly ipv4 or ipv6 (case-sensitively; all other
types are skipped), each contributing "addr (TYPE-UPPERCASED)"; the
accumulated text is stripped of surrounding whitespace and the trailing
comma, leaving the comma-separated join, and a host with zero matching
address children yields the empty string.  The join equality holds
whenever the first entry opens with a character that is neither
whitespace nor a comma, which Python strip would otherwise remove. -/
theorem C7_address_build (h : XmlElem) (hd : HostData)
    (hok : parse_host h = .ok hd) :
    (addressEntries h = [] → hd.address = "") ∧
    (∀ (e : String) (es : List String) (c : Char) (rest : List Char),
       addressEntries h = e :: es → e.data = c :: rest →
       isPyWs c = false → (c == ',') = false →
       hd.address = pyJoin ", " (addressEntries h)) := by
  have hA := (parse_host_ok_fields hok).1
  constructor
  · intro hnil
    rw [hA]
    unfold host_address
    rw [foldl_addrStep]
    rw [show (h.findall "address").filterMap addrEntryOf = addressEntries h from rfl, hnil]
    rfl
  · intro e es c rest hcons hh hws hcomma
    rw [hA]
    unfold host_address
    rw [foldl_addrStep]
    rw [show (h.findall "address").filterMap addrEntryOf = addressEntries h from rfl, hcons]
    show pyStripComma (pyStripWs (entriesBlob (e :: es))) = pyJoin ", " (e :: es)
    exact strip_entries e es c rest hh hws hcomma (hcons ▸ addressEntries_end_paren h)

/-- C7 witness: a host with ipv4, mac and ipv6 address children; the mac
entry is skipped and the other two are comma-joined. -/
theorem C7_address_build_witness :
    hdAddrs.address = pyJoin ", " (addressEntries hostAddrs) ∧
    hdAddrs.address = "10.0.0.1 (IPV4), fe80::1 (IPV6)" :=
  ⟨(C7_address_build hostAddrs hdAddrs (by rfl)).2
      "10.0.0.1 (IPV4)" ["fe80::1 (IPV6)"] (Char.ofNat 49) ("0.0.0.1 (IPV4)").data
      (by rfl) (by rfl) (by rfl) (by rfl),
   by rfl⟩

/-! ## Claim C9 -/

/-- C9: each host yields at most one extraports summary, taken from the
first extraports child of the ports element (its state and count
attributes); a host with no ports element has empty ports and extraports;
and the rendered extraports rows are the rows after the five fixed rows
and the port rows, each a single merged cell reading
"count ports are in state: state" with no shading. -/
theorem C9_extraports (h : XmlElem) (hd : HostData) (t : Table)
    (hparse : parse_host h = .ok hd)
    (hrender : create_final_host_table hd = .ok t) :
    hd.extraports.length ≤ 1 ∧
    (h.find "ports" = none → hd.ports = [] ∧ hd.extraports = []) ∧
    (∀ pe ex, h.find "ports" = some pe → pe.find "extraports" = some ex →
       hd.extraports = [ExtraPorts.mk (ex.get "state") (ex.get "count")]) ∧
    (∀ pe, h.find "ports" = some pe → pe.find "extraports" = none →
       hd.extraports = []) ∧
    t.rows.drop (5 + hd.ports.length) = hd.extraports.map (fun ep =>
       Row.merged (Cell.mk (pyStr ep.count ++ " ports are in state: " ++ pyStr ep.state)
         none none (some 9) (some "Calibri"))) := by
  refine ⟨?_, ?_, ?_, ?_, ?_⟩
  · cases hfp : h.find "ports" with
    | none => rw [(parse_host_ok_noports hfp hparse).2]; decide
    | some pe =>
      rw [(parse_host_ok_ports hfp hparse).2]
      unfold host_extraports
      cases pe.find "extraports" <;> simp
  · intro hfp
    exact parse_host_ok_noports hfp hparse
  · intro pe ex hfp hex
    rw [(parse_host_ok_ports hfp hparse).2]
    unfold host_extraports
    rw [hex]
  · intro pe hfp hex
    rw [(parse_host_ok_ports hfp hparse).2]
    unfold host_extraports
    rw [hex]
  · obtain ⟨portRows, hm, hrows⟩ := create_ok_rows hrender
    rw [hrows]
    have hlen : (fixed_rows hd ++ portRows).length = 5 + hd.ports.length := by
      simp [fixed_rows, mapME_ok_length hm]
      omega
    rw [← List.map_drop, ← hlen, List.drop_left, List.map_map]
    rfl

/-- C9 witness: the theorem instantiated at the specification example,
a host whose ports element has no port children and one extraports child
with state filtered and count 997; the rendered table has exactly one
extraports row reading "997 ports are in state: filtered". -/
theorem C9_extraports_witness :
    hdExtra.extraports =
      [ExtraPorts.mk (extraFilteredElem.get "state") (extraFilteredElem.get "count")] ∧
    tblExtra.rows.drop (5 + hdExtra.ports.length) = hdExtra.extraports.map (fun ep =>
       Row.merged (Cell.mk (pyStr ep.count ++ " ports are in state: " ++ pyStr ep.state)
         none none (some 9) (some "Calibri"))) ∧
    tblExtra.rows.drop 5 =
      [Row.merged (Cell.mk "997 ports are in state: filtered"
        none none (some 9) (some "Calibri"))] := by
  have H := C9_extraports hostExtra hdExtra tblExtra (by rfl) (by rfl)
  exact ⟨H.2.2.1 portsExtraElem extraFilteredElem (by rfl) (by rfl), H.2.2.2.2, by rfl⟩

/-! ## Claim C4 -/

/-- C4: for a host with a ports element, the extracted port records are
in bijection, preserving document order, with the port children of that
element; the rendered table has the five fixed rows, then one row per
port record in order, then the extraports rows; and each port row shows
the six record fields (product and version rendered as the empty text
when None) over a fill that is EAF1DD exactly when state equals the
literal open and F2DBDB for every other state, with no explicit run text
color. -/
theorem C4_port_rows (h pe : XmlElem) (hd : HostData) (t : Table)
    (hparse : parse_host h = .ok hd)
    (hpe : h.find "ports" = some pe)
    (hrender : create_final_host_table hd = .ok t) :
    hd.ports.length = (pe.findall "port").length ∧
    (∀ (i : Nat) (x : XmlElem) (p : PortData),
       (pe.findall "port")[i]? = some x → hd.ports[i]? = some p →
       parse_port x = .ok p) ∧
    t.rows.length = 5 + hd.ports.length + hd.extraports.length ∧
    (∀ (i : Nat) (p : PortData), hd.ports[i]? = some p →
       t.rows[5 + i]? = some (Row.cells
         ([p.portid.getD "", p.protocol.getD "", p.state.getD "",
           p.service.getD "", p.product.getD "", p.version.getD ""].map
          (fun s => Cell.mk s
            (some (if p.state == some "open" then "EAF1DD" else "F2DBDB"))
            none (some 9) (some "Calibri"))))) := by
  have hports := (parse_host_ok_ports hpe hparse).1
  obtain ⟨portRows, hm, hrows⟩ := create_ok_rows hrender
  refine ⟨mapME_ok_length hports, ?_, ?_, ?_⟩
  · intro i x p hx hp
    obtain ⟨y, hy, hf⟩ := mapME_ok_getElem hports i x hx
    rw [hp] at hy
    injection hy with hy1
    rw [hy1]
    exact hf
  · rw [hrows]
    simp [fixed_rows, mapME_ok_length hm]
    omega
  · intro i p hp
    obtain ⟨r, hr, hf⟩ := mapME_ok_getElem hm i p hp
    rw [hrows, List.getElem?_map, List.append_assoc]
    have h5 : (fixed_rows hd).length = 5 := rfl
    rw [show (5 : Nat) + i = (fixed_rows hd).length + i from by rw [h5]]
    rw [getElem?_append_len_add]
    have hilt : i < portRows.length := by
      rw [mapME_ok_length hm]
      exact (List.getElem?_eq_some.mp hp).1
    rw [getElem?_append_lt portRows _ i hilt, hr, render_port_row_ok hf]
    rfl

/-- C4 witness: the theorem instantiated at the minimal host; the last
conjunct evaluates the rendered port row to its literal green-filled
cells. -/
theorem C4_port_rows_witness :
    hdMin.ports.length = (portsMinElem.findall "port").length ∧
    tblMin.rows.length = 5 + hdMin.ports.length + hdMin.extraports.length ∧
    tblMin.rows[5 + 0]? = some (Row.cells
      ([portMinData.portid.getD "", portMinData.protocol.getD "",
        portMinData.state.getD "", portMinData.service.getD "",
        portMinData.product.getD "", portMinData.version.getD ""].map
       (fun s => Cell.mk s
         (some (if portMinData.state == some "open" then "EAF1DD" else "F2DBDB"))
         none (some 9) (some "Calibri")))) ∧
    tblMin.rows[5]? = some (Row.cells
      [Cell.mk "80" (some "EAF1DD") none (some 9) (some "Calibri"),
       Cell.mk "tcp" (some "EAF1DD") none (some 9) (some "Calibri"),
       Cell.mk "open" (some "EAF1DD") none (some 9) (some "Calibri"),
       Cell.mk "http" (some "EAF1DD") none (some 9) (some "Calibri"),
       Cell.mk "nginx" (some "EAF1DD") none (some 9) (some "Calibri"),
       Cell.mk "1.18" (some "EAF1DD") none (some 9) (some "Calibri")]) := by
  have H := C4_port_rows hostMin portsMinElem hdMin tblMin (by rfl) (by rfl) (by rfl)
  exact ⟨H.1, H.2.2.1, H.2.2.2 0 portMinData (by rfl), by rfl⟩

/-! ## Claim C6 -/

/-- C6: when the XML is unparsable, and when the parsed tree contains a
port element without a state child, the run terminates with exit status
1 and saves no output document. -/
theorem C6_fatal_no_output :
    (∀ (fileLines : Option (List String)) (outputArg : String),
       (mainRun fileLines none outputArg).saved = none ∧
       (mainRun fileLines none outputArg).exitCode = 1) ∧
    (∀ (fileLines : Option (List String)) (root : XmlElem) (outputArg : String)
       (host pe p : XmlElem),
       host ∈ root.findallDescendant "host" →
       host.find "ports" = some pe →
       p ∈ pe.findall "port" →
       p.find "state" = none →
       (mainRun fileLines (some root) outputArg).saved = none ∧
       (mainRun fileLines (some root) outputArg).exitCode = 1) := by
  constructor
  · intro fileLines outputArg
    unfold mainRun
    cases hc : check_xml_file fileLines <;> exact ⟨rfl, rfl⟩
  · intro fileLines root outputArg host pe p hhost hpe hp hstate
    have hErr : ∀ hosts, parse_nmap_xml root ≠ .ok hosts := by
      intro hosts hok
      unfold parse_nmap_xml at hok
      cases hph : parse_host host with
      | ok hdX => exact parse_host_error_of_bad_port hpe hp hstate hdX hph
      | error e => exact mapME_error_of_mem hhost hph hosts hok
    unfold mainRun
    cases hc : check_xml_file fileLines with
    | false => exact ⟨rfl, rfl⟩
    | true =>
      dsimp only
      cases hpr : parse_nmap_xml root with
      | error e => exact ⟨rfl, rfl⟩
      | ok hosts => exact absurd hpr (hErr hosts)

/-- C6 witness: the theorem applied to an unparsable input and to a
parsed tree whose only port lacks a state child. -/
theorem C6_fatal_no_output_witness :
    (mainRun (some badHeaderLines) none "out").saved = none ∧
    (mainRun (some badHeaderLines) (some rootBadPort) "out").saved = none := by
  have H := C6_fatal_no_output
  refine ⟨(H.1 (some badHeaderLines) "out").1, ?_⟩
  have hhost : hostBadPort ∈ rootBadPort.findallDescendant "host" := by
    simp [XmlElem.findallDescendant, descList, rootBadPort, hostBadPort,
          portsBareElem, portBareElem]
  have hp : portBareElem ∈ portsBareElem.findall "port" := by
    simp [XmlElem.findall, portsBareElem, portBareElem]
  exact (H.2 (some badHeaderLines) rootBadPort "out" hostBadPort portsBareElem portBareElem
    hhost (by rfl) hp (by rfl)).1

/-! ## Claim C2 -/

/-- C2, counterexample: the claim asserts the minimal single-host,
single-open-port input yields a table of exactly 7 rows, but its own
breakdown (2 label rows, 2 value rows, 1 column-header row, 1 port row,
0 extraports rows) sums to 6, and the code produces exactly one table
with exactly 6 rows. -/
theorem C2_counterexample :
    (match parse_nmap_xml rootMin with
     | .error _ => none
     | .ok hosts =>
       match build_document hosts with
       | .error _ => none
       | .ok doc => some ((docTables doc).map (fun tb => tb.rows.length)))
      = some [6] ∧ (6 : Nat) ≠ 7 := by
  have hfd : rootMin.findallDescendant "host" = [hostMin] := by
    simp only [XmlElem.findallDescendant, rootMin, hostMin, portsMinElem,
               portFullElem, stateOpenElem, svcFullElem, descList]
    rfl
  have hparse : parse_nmap_xml rootMin = .ok [hdMin] := by
    unfold parse_nmap_xml
    rw [hfd]
    rfl
  rw [hparse]
  exact ⟨rfl, by decide⟩

/-- C2 (amended): an input with exactly one host, exactly one port under
its ports element and no extraports element renders to exactly one table
containing exactly 6 rows: 2 header-label rows, 2 value rows, 1
column-header row, 1 port row and 0 extraports rows. -/
theorem C2_single_host_six_rows (root h pe x : XmlElem)
    (hosts : List HostData) (doc : Document)
    (h1 : root.findallDescendant "host" = [h])
    (h2 : h.find "ports" = some pe)
    (h3 : pe.findall "port" = [x])
    (h4 : pe.find "extraports" = none)
    (h5 : parse_nmap_xml root = .ok hosts)
    (h6 : build_document hosts = .ok doc) :
    (docTables doc).map (fun tb => tb.rows.length) = [6] := by
  unfold parse_nmap_xml at h5
  rw [h1] at h5
  cases hph : parse_host h with
  | error e => rw [show mapME parse_host [h] = .error e from by unfold mapME; rw [hph]] at h5
               exact Except.noConfusion h5
  | ok hd =>
    have hhosts : hosts = [hd] := by
      rw [show mapME parse_host [h] = .ok [hd] from by unfold mapME; rw [hph]; rfl] at h5
      injection h5 with h7
      exact h7.symm
    subst hhosts
    have hplen : hd.ports.length = 1 := by
      have := mapME_ok_length (parse_host_ok_ports h2 hph).1
      rw [h3] at this
      exact this
    have hex : hd.extraports = [] := by
      rw [(parse_host_ok_ports h2 hph).2]
      unfold host_extraports
      rw [h4]
    unfold build_document at h6
    cases hct : create_final_host_table hd with
    | error e => rw [show mapME create_final_host_table [hd] = .error e from by
                      unfold mapME; rw [hct]] at h6
                 exact Except.noConfusion h6
    | ok tb =>
      have hdoc : doc = { blocks := interleaveBlocks [tb] } := by
        rw [show mapME create_final_host_table [hd] = .ok [tb] from by
              unfold mapME; rw [hct]; rfl] at h6
        injection h6 with h7
        exact h7.symm
      subst hdoc
      have hrows : tb.rows.length = 6 := by
        obtain ⟨portRows, hm, hrows⟩ := create_ok_rows hct
        rw [hrows]
        simp [fixed_rows, mapME_ok_length hm, hplen, hex]
      simp [docTables, interleaveBlocks, hrows]

/-- C2 witness: the amended theorem instantiated at the minimal
single-host input. -/
theorem C2_single_host_six_rows_witness :
    (docTables docMin).map (fun tb => tb.rows.length) = [6] := by
  have h1 : rootMin.findallDescendant "host" = [hostMin] := by
    simp only [XmlElem.findallDescendant, rootMin, hostMin, portsMinElem,
               portFullElem, stateOpenElem, svcFullElem, descList]
    rfl
  have h5 : parse_nmap_xml rootMin = .ok [hdMin] := by
    unfold parse_nmap_xml
    rw [h1]
    rfl
  exact C2_single_host_six_rows rootMin hostMin portsMinElem portFullElem [hdMin] docMin
    h1 (by rfl) (by rfl) (by rfl) h5 (by rfl)

end NmapToDocx
